import Mathlib

/-!
A shallow embedding of `frame/contracts/src/chain_extension.rs`: the
chain-extension dispatch contract, the typed `Environment` with its
compile-time state machine (`mod state`), the capability-gated accessors,
and the default (unit) `ChainExtension` implementation.

The host runtime collaborators (`charge_gas`, `read_sandbox_memory`,
`write_sandbox_output`, the `Ext::caller` accessor) live outside the
embedded file; they are modelled from the specification's description of
those interfaces, as marked on each definition.

Machine integers (`u32`, `u64`) are modelled as `Nat`; the one place the
source performs wrapping-sensitive arithmetic is `Weight::saturating_mul`,
modelled explicitly with saturation at `2 ^ 64 - 1`.
-/

namespace ChainExt

/-- The four capability traits of `mod state`: `PrimIn`, `PrimOut`,
`BufIn`, `BufOut`. -/
inductive Capability
  | PrimIn
  | PrimOut
  | BufIn
  | BufOut
  deriving DecidableEq, Repr

/-- The four state markers of `mod state`: `Init`, `OnlyIn`,
`PrimInBufOut`, `BufInBufOut`. -/
inductive MState
  | Init
  | OnlyIn
  | PrimInBufOut
  | BufInBufOut
  deriving DecidableEq, Repr

/-- The capability membership table, transcribed from the trait `impl`s at
the bottom of `mod state`: `impl PrimIn for OnlyIn`, `impl PrimOut for
OnlyIn`, `impl PrimIn for PrimInBufOut`, `impl BufOut for PrimInBufOut`,
`impl BufIn for BufInBufOut`, `impl BufOut for BufInBufOut`; `Init`
implements only `State`. -/
def hasCap : MState → Capability → Bool
  | .OnlyIn, .PrimIn => true
  | .OnlyIn, .PrimOut => true
  | .PrimInBufOut, .PrimIn => true
  | .PrimInBufOut, .BufOut => true
  | .BufInBufOut, .BufIn => true
  | .BufInBufOut, .BufOut => true
  | _, _ => false

/-- The capability-gated accessors of `Environment`. -/
inductive Accessor
  | val0
  | val1
  | val2
  | val3
  | read
  | write
  deriving DecidableEq, Repr

/-- Which capability each accessor's `impl` block demands: `val0`/`val1`
sit in the `S: state::PrimIn` block, `val2`/`val3` in `S: state::PrimOut`,
`read` in `S: state::BufIn`, `write` in `S: state::BufOut`. -/
def requiredCap : Accessor → Capability
  | .val0 => .PrimIn
  | .val1 => .PrimIn
  | .val2 => .PrimOut
  | .val3 => .PrimOut
  | .read => .BufIn
  | .write => .BufOut

/-- An accessor is available on an `Environment<S>` exactly when `S` has
the capability its `impl` block is bounded by (Rust method resolution on
the trait bound). -/
def available (s : MState) (a : Accessor) : Bool :=
  hasCap s (requiredCap a)

/-- The state/capability table as written in §4.1 of the specification
(spec words, for the refinement comparison with `hasCap`). -/
def specCapabilityTable : MState → Capability → Bool
  | .Init, _ => false
  | .OnlyIn, .PrimIn => true
  | .OnlyIn, .PrimOut => true
  | .OnlyIn, _ => false
  | .PrimInBufOut, .PrimIn => true
  | .PrimInBufOut, .BufOut => true
  | .PrimInBufOut, _ => false
  | .BufInBufOut, .BufIn => true
  | .BufInBufOut, .BufOut => true
  | .BufInBufOut, _ => false

/-- The accessor/capability requirements as written in the specification
(spec words: val0/val1 need PrimIn, val2/val3 need PrimOut, read needs
BufIn, write needs BufOut). -/
def specRequiredCap : Accessor → Capability
  | .val0 => .PrimIn
  | .val1 => .PrimIn
  | .val2 => .PrimOut
  | .val3 => .PrimOut
  | .read => .BufIn
  | .write => .BufOut

/-- The one-step transition structure of the type-state machine: the only
consuming transition methods are `only_in`, `prim_in_buf_out`,
`buf_in_buf_out`, all defined in the single `impl` block for
`Environment<Init>`; no other `impl` block defines a transition. -/
def transitions : MState → List MState
  | .Init => [.OnlyIn, .PrimInBufOut, .BufInBufOut]
  | _ => []

/-- Error kinds surfaced by this core (`DispatchError` values as the spec
classifies them). -/
inductive DispatchError
  | OutOfGas
  | MemoryAccessOutOfBounds
  | NoChainExtension
  deriving DecidableEq, Repr

/-- `ReturnFlags` is opaque to this core; carried as a raw word. -/
structure ReturnFlags where
  bits : Nat
  deriving DecidableEq, Repr

/-- The return-value protocol: `Converging(u32)` or
`Diverging{flags, data}`. -/
inductive RetVal
  | Converging (val : Nat)
  | Diverging (flags : ReturnFlags) (data : List Nat)
  deriving DecidableEq, Repr

/-- Modelled from the spec: the execution-context capability set (`Ext`)
is external; only the caller accessor is needed here. `caller_reads`
counts invocations of the caller accessor, making the "observable side
effect" of touching the execution context explicit. -/
structure Ext where
  caller_account : Nat
  caller_reads : Nat
  deriving DecidableEq, Repr

/-- Modelled from the spec: invoking the execution context's caller
accessor returns the calling account and is an observable side effect
(recorded in `caller_reads`). -/
def Ext.caller (e : Ext) : Nat × Ext :=
  (e.caller_account, { e with caller_reads := e.caller_reads + 1 })

/-- Modelled from the spec: the host `Runtime` collaborator, reduced to
what the embedded file consumes — a gas meter holding the remaining gas,
the guest's sandbox linear memory (one `Nat` per byte), and the execution
context. -/
structure Runtime where
  gas : Nat
  memory : List Nat
  ext : Ext
  deriving DecidableEq, Repr

/-- Modelled from the spec: `charge_gas(token) -> Result<()>` — the gas
metering primitive; the token encodes an amount; fails with an
OutOfGas-class error, leaving the meter untouched, when the meter is
exhausted. -/
def Runtime.charge_gas (r : Runtime) (amount : Nat) : Runtime × Option DispatchError :=
  if amount ≤ r.gas then ({ r with gas := r.gas - amount }, none)
  else (r, some .OutOfGas)

/-- Modelled from the spec: `read_sandbox_memory(ptr, len) -> Result<bytes>`
— a bounds-checked guest memory read; fails with a
MemoryAccessOutOfBounds-class error, returning no partial data, when the
range is not fully mapped. -/
def Runtime.read_sandbox_memory (r : Runtime) (ptr len : Nat) :
    Except DispatchError (List Nat) :=
  if ptr + len ≤ r.memory.length then
    .ok ((r.memory.drop ptr).take len)
  else
    .error .MemoryAccessOutOfBounds

/-- Little-endian 32-bit encoding of a length, as written to the guest's
output-length location. -/
def le32 (n : Nat) : List Nat :=
  [n % 256, n / 256 % 256, n / 65536 % 256, n / 16777216 % 256]

/-- Little-endian decoding of a 4-byte guest word (the declared output
buffer capacity read from `out_len_ptr`). -/
def le32_decode : List Nat → Nat
  | [a, b, c, d] => a + 256 * b + 65536 * c + 16777216 * d
  | _ => 0

/-- Overwrite the bytes of `m` at `[ptr, ptr + data.length)` with `data`
(meaningful when the range lies inside `m`). -/
def writeMem (m : List Nat) (ptr : Nat) (data : List Nat) : List Nat :=
  m.take ptr ++ data ++ m.drop (ptr + data.length)

/-- Modelled from the spec: the skip sentinel's numeric encoding is fixed
by the external collaborator; the guest signals "I don't want the output"
by passing `u32::MAX` as the output pointer. -/
def skipSentinel : Nat := 2 ^ 32 - 1

/-- Modelled from the spec:
`write_sandbox_output(out_ptr, out_len_ptr, data, allow_skip, cost_fn)` —
a bounds-checked guest memory write with optional skip and a cost callback
invoked with the byte length to produce a chargeable token. If `allow_skip`
is set and the guest supplied the skip sentinel, the write is skipped
without error. Fails with a MemoryAccessOutOfBounds-class error when the
data does not fit the guest's declared output buffer (the 32-bit capacity
stored at `out_len_ptr`) or the target range is unmapped. Any gas charge
happens before any byte is written; on success the actual length is
written to `out_len_ptr` and the data to `out_ptr`. -/
def Runtime.write_sandbox_output (r : Runtime) (out_ptr out_len_ptr : Nat)
    (buf : List Nat) (allow_skip : Bool) (cost : Nat → Option Nat) :
    Runtime × Option DispatchError :=
  if allow_skip && decide (out_ptr = skipSentinel) then (r, none)
  else
    match r.read_sandbox_memory out_len_ptr 4 with
    | .error e => (r, some e)
    | .ok lenBytes =>
      if le32_decode lenBytes < buf.length ∨ r.memory.length < out_ptr + buf.length then
        (r, some .MemoryAccessOutOfBounds)
      else
        let charged := match cost buf.length with
          | some amount => r.charge_gas amount
          | none => (r, none)
        match charged with
        | (r1, some e) => (r1, some e)
        | (r1, none) =>
          ({ r1 with memory := writeMem (writeMem r1.memory out_len_ptr (le32 buf.length)) out_ptr buf }, none)

/-- `u64::MAX`, the saturation bound of `Weight` arithmetic. -/
def u64Max : Nat := 2 ^ 64 - 1

/-- `Weight::saturating_mul` on `u64`. -/
def saturating_mul (a b : Nat) : Nat :=
  min (a * b) u64Max

/-- `Inner`: the mutable borrow of the host runtime plus the four raw call
words (`input_ptr`, `input_len`, `output_ptr`, `output_len_ptr`). -/
structure Inner where
  runtime : Runtime
  input_ptr : Nat
  input_len : Nat
  output_ptr : Nat
  output_len_ptr : Nat
  deriving DecidableEq, Repr

/-- `Environment<E, S>`: the `Inner` data plus a phantom state marker,
modelled as a structure indexed by the state. -/
structure Environment (S : MState) where
  inner : Inner
  deriving DecidableEq, Repr

/-- The state marker of an environment (the phantom type parameter). -/
def stateOf {S : MState} (_ : Environment S) : MState := S

/-- `pub(crate) fn environment(...)`: the dispatch loop's construction
entry point; packs the runtime and the four call words into an
`Environment<Init>`. -/
def environment (runtime : Runtime) (input_ptr input_len output_ptr output_len_ptr : Nat) :
    Environment .Init :=
  ⟨⟨runtime, input_ptr, input_len, output_ptr, output_len_ptr⟩⟩

/-- `Environment<Init>::only_in`: consumes the `Init` environment, keeping
`inner` unchanged. -/
def Environment.only_in (e : Environment .Init) : Environment .OnlyIn :=
  ⟨e.inner⟩

/-- `Environment<Init>::prim_in_buf_out`: consumes the `Init` environment,
keeping `inner` unchanged. -/
def Environment.prim_in_buf_out (e : Environment .Init) : Environment .PrimInBufOut :=
  ⟨e.inner⟩

/-- `Environment<Init>::buf_in_buf_out`: consumes the `Init` environment,
keeping `inner` unchanged. -/
def Environment.buf_in_buf_out (e : Environment .Init) : Environment .BufInBufOut :=
  ⟨e.inner⟩

/-- `charge_weight(amount)`: forwards to
`runtime.charge_gas(RuntimeToken::ChainExtension(amount))`; available in
every state. -/
def Environment.charge_weight {S : MState} (e : Environment S) (amount : Nat) :
    Runtime × Option DispatchError :=
  e.inner.runtime.charge_gas amount

/-- `val0()`: requires the `PrimIn` bound; returns `inner.input_ptr`. -/
def Environment.val0 {S : MState} (e : Environment S) (_ : hasCap S .PrimIn = true) : Nat :=
  e.inner.input_ptr

/-- `val1()`: requires the `PrimIn` bound; returns `inner.input_len`. -/
def Environment.val1 {S : MState} (e : Environment S) (_ : hasCap S .PrimIn = true) : Nat :=
  e.inner.input_len

/-- `val2()`: requires the `PrimOut` bound; returns `inner.output_ptr`. -/
def Environment.val2 {S : MState} (e : Environment S) (_ : hasCap S .PrimOut = true) : Nat :=
  e.inner.output_ptr

/-- `val3()`: requires the `PrimOut` bound; returns
`inner.output_len_ptr`. -/
def Environment.val3 {S : MState} (e : Environment S) (_ : hasCap S .PrimOut = true) : Nat :=
  e.inner.output_len_ptr

/-- `read()`: requires the `BufIn` bound; forwards to
`runtime.read_sandbox_memory(input_ptr, input_len)`. -/
def Environment.read {S : MState} (e : Environment S) (_ : hasCap S .BufIn = true) :
    Except DispatchError (List Nat) :=
  e.inner.runtime.read_sandbox_memory e.inner.input_ptr e.inner.input_len

/-- `write(buf, allow_skip, weight_per_byte)`: requires the `BufOut`
bound; forwards to `runtime.write_sandbox_output(output_ptr,
output_len_ptr, buf, allow_skip, cost_fn)` where the cost callback is
`|len| weight_per_byte.map(|w| w.saturating_mul(len))`. -/
def Environment.write {S : MState} (e : Environment S) (_ : hasCap S .BufOut = true)
    (buf : List Nat) (allow_skip : Bool) (weight_per_byte : Option Nat) :
    Runtime × Option DispatchError :=
  e.inner.runtime.write_sandbox_output e.inner.output_ptr e.inner.output_len_ptr buf allow_skip
    (fun len => weight_per_byte.map (fun w => saturating_mul w len))

namespace UnitExtension

/-- `<() as ChainExtension>::enabled()`: returns `false`. -/
def enabled : Bool := false

/-- `<() as ChainExtension>::call(func_id, env)`: invokes
`env.ext().caller()` (an observable access to the execution context) and
then returns `Err(Error::NoChainExtension)`, for every `func_id`. -/
def call (_func_id : Nat) (env : Environment .Init) :
    Runtime × Except DispatchError RetVal :=
  let touched := env.inner.runtime.ext.caller
  ({ env.inner.runtime with ext := touched.2 }, .error .NoChainExtension)

end UnitExtension

/-! ### Helper lemmas about `writeMem` -/

theorem writeMem_length (m : List Nat) (p : Nat) (d : List Nat)
    (hp : p + d.length ≤ m.length) : (writeMem m p d).length = m.length := by
  simp only [writeMem, List.length_append, List.length_take, List.length_drop]
  omega

theorem writeMem_getElem (m : List Nat) (p : Nat) (d : List Nat) (i : Nat)
    (hp : p + d.length ≤ m.length) :
    (writeMem m p d)[i]? =
      if p ≤ i ∧ i < p + d.length then d[i - p]? else m[i]? := by
  have hpm : p ≤ m.length := by omega
  have htake : (m.take p).length = p := by
    simp only [List.length_take]
    omega
  by_cases h1 : i < p
  · rw [if_neg (by omega)]
    rw [writeMem, List.append_assoc, List.getElem?_append_left (by omega),
      List.getElem?_take_of_lt h1]
  · by_cases h2 : i < p + d.length
    · rw [if_pos ⟨by omega, h2⟩]
      rw [writeMem, List.append_assoc, List.getElem?_append_right (by omega), htake,
        List.getElem?_append_left (by omega)]
    · rw [if_neg (by omega)]
      rw [writeMem, List.append_assoc, List.getElem?_append_right (by omega), htake,
        List.getElem?_append_right (by omega), List.getElem?_drop]
      congr 1
      omega

theorem le32_length (n : Nat) : (le32 n).length = 4 := rfl

/-! ### Helper lemmas about `write_sandbox_output` -/

theorem write_sandbox_output_success (r : Runtime) (p q : Nat) (buf : List Nat)
    (allow_skip : Bool) (cost : Nat → Option Nat)
    (hguard : (allow_skip && decide (p = skipSentinel)) = false)
    (hq : q + 4 ≤ r.memory.length)
    (hfit : buf.length ≤ le32_decode ((r.memory.drop q).take 4))
    (hp : p + buf.length ≤ r.memory.length)
    (hgas : (cost buf.length).getD 0 ≤ r.gas) :
    r.write_sandbox_output p q buf allow_skip cost =
      (Runtime.mk (r.gas - (cost buf.length).getD 0)
        (writeMem (writeMem r.memory q (le32 buf.length)) p buf) r.ext, none) := by
  unfold Runtime.write_sandbox_output Runtime.read_sandbox_memory Runtime.charge_gas
  rw [hguard, if_pos hq]
  simp only [Bool.false_eq_true, if_false]
  rw [if_neg (by omega)]
  cases hc : cost buf.length with
  | none => rfl
  | some amt =>
    rw [hc] at hgas
    simp only [Option.getD_some] at hgas
    simp [hgas]

theorem write_sandbox_output_too_small (r : Runtime) (p q : Nat) (buf : List Nat)
    (allow_skip : Bool) (cost : Nat → Option Nat)
    (hguard : (allow_skip && decide (p = skipSentinel)) = false)
    (hq : q + 4 ≤ r.memory.length)
    (hsmall : le32_decode ((r.memory.drop q).take 4) < buf.length) :
    r.write_sandbox_output p q buf allow_skip cost =
      (r, some DispatchError.MemoryAccessOutOfBounds) := by
  unfold Runtime.write_sandbox_output Runtime.read_sandbox_memory
  rw [hguard, if_pos hq]
  simp only [Bool.false_eq_true, if_false]
  rw [if_pos (Or.inl hsmall)]

theorem write_sandbox_output_gas_exhausted (r : Runtime) (p q : Nat) (buf : List Nat)
    (allow_skip : Bool) (cost : Nat → Option Nat) (amt : Nat)
    (hguard : (allow_skip && decide (p = skipSentinel)) = false)
    (hq : q + 4 ≤ r.memory.length)
    (hfit : buf.length ≤ le32_decode ((r.memory.drop q).take 4))
    (hp : p + buf.length ≤ r.memory.length)
    (hc : cost buf.length = some amt)
    (hgas : r.gas < amt) :
    r.write_sandbox_output p q buf allow_skip cost = (r, some DispatchError.OutOfGas) := by
  unfold Runtime.write_sandbox_output Runtime.read_sandbox_memory Runtime.charge_gas
  rw [hguard, if_pos hq]
  simp only [Bool.false_eq_true, if_false]
  rw [if_neg (by omega), hc]
  have hn : ¬ amt ≤ r.gas := by omega
  simp [hn]

/-! ### Theorems -/

/-- C1: The state/capability membership is exactly the table of §4.1: Init
has no capability; OnlyIn has PrimIn and PrimOut and nothing else;
PrimInBufOut has PrimIn and BufOut and nothing else; BufInBufOut has BufIn
and BufOut and nothing else — and for every state `S`, an accessor whose
required capability is absent from `S`'s set is not available on an
`Environment` in state `S`. -/
theorem state_capability_table_exact :
    (∀ s c, hasCap s c = specCapabilityTable s c) ∧
    (∀ a, requiredCap a = specRequiredCap a) ∧
    (∀ s a, specCapabilityTable s (specRequiredCap a) = false → available s a = false) := by
  refine ⟨fun s c => ?_, fun a => ?_, fun s a => ?_⟩
  · cases s <;> cases c <;> rfl
  · cases a <;> rfl
  · cases s <;> cases a <;> decide

theorem state_capability_table_exact_witness :
    available MState.Init Accessor.read = false :=
  state_capability_table_exact.2.2 MState.Init Accessor.read (by decide)

/-- C2: Init is the sole initial state, produced by the dispatch loop's
construction entry point `environment`; each of `only_in`,
`prim_in_buf_out`, `buf_in_buf_out` is available only in state Init,
consumes it, and yields OnlyIn, PrimInBufOut, BufInBufOut respectively;
the three resulting states are terminal (no transition leaves them), and
each is reached from Init by exactly one transition. -/
theorem init_state_machine :
    (∀ rt a b c d, stateOf (environment rt a b c d) = MState.Init) ∧
    transitions MState.Init = [MState.OnlyIn, MState.PrimInBufOut, MState.BufInBufOut] ∧
    (∀ e : Environment .Init,
      stateOf e.only_in = MState.OnlyIn ∧
      stateOf e.prim_in_buf_out = MState.PrimInBufOut ∧
      stateOf e.buf_in_buf_out = MState.BufInBufOut) ∧
    (∀ s, s ≠ MState.Init → transitions s = []) ∧
    (∀ s, s ≠ MState.Init → (transitions MState.Init).count s = 1) := by
  refine ⟨fun rt a b c d => rfl, rfl, fun e => ⟨rfl, rfl, rfl⟩, fun s => ?_, fun s => ?_⟩ <;>
    cases s <;> decide

theorem init_state_machine_witness :
    transitions MState.OnlyIn = [] ∧
    (transitions MState.Init).count MState.BufInBufOut = 1 :=
  ⟨init_state_machine.2.2.2.1 MState.OnlyIn (by decide),
   init_state_machine.2.2.2.2 MState.BufInBufOut (by decide)⟩

/-- C7: In the PrimIn-capable states (OnlyIn, PrimInBufOut), `val0` and
`val1` return Call Words 0 and 1 as given at construction; in the
PrimOut-capable state (OnlyIn), `val2` and `val3` return Call Words 2
and 3 as given at construction. -/
theorem val_accessors_return_call_words (rt : Runtime) (a b c d : Nat) :
    (environment rt a b c d).only_in.val0 (by decide) = a ∧
    (environment rt a b c d).only_in.val1 (by decide) = b ∧
    (environment rt a b c d).only_in.val2 (by decide) = c ∧
    (environment rt a b c d).only_in.val3 (by decide) = d ∧
    (environment rt a b c d).prim_in_buf_out.val0 (by decide) = a ∧
    (environment rt a b c d).prim_in_buf_out.val1 (by decide) = b :=
  ⟨rfl, rfl, rfl, rfl, rfl, rfl⟩

/-- C9: Each of the three state transitions moves the inner data
unchanged — after any transition, the four Call Words and the runtime
reference are exactly those the Init environment was constructed with, so
the terminal-state accessors observe the original construction-time
words. -/
theorem transitions_preserve_inner (e : Environment .Init) :
    e.only_in.inner = e.inner ∧
    e.prim_in_buf_out.inner = e.inner ∧
    e.buf_in_buf_out.inner = e.inner ∧
    e.only_in.val0 (by decide) = e.inner.input_ptr ∧
    e.only_in.val1 (by decide) = e.inner.input_len ∧
    e.only_in.val2 (by decide) = e.inner.output_ptr ∧
    e.only_in.val3 (by decide) = e.inner.output_len_ptr ∧
    e.buf_in_buf_out.read (by decide) =
      e.inner.runtime.read_sandbox_memory e.inner.input_ptr e.inner.input_len ∧
    (∀ buf allow_skip wpb, e.buf_in_buf_out.write (by decide) buf allow_skip wpb =
      e.inner.runtime.write_sandbox_output e.inner.output_ptr e.inner.output_len_ptr buf
        allow_skip (fun len => wpb.map (fun w => saturating_mul w len))) :=
  ⟨rfl, rfl, rfl, rfl, rfl, rfl, rfl, rfl, fun buf allow_skip wpb => rfl⟩

/-- C6: For the unit (default/no-op) `ChainExtension` implementation,
`enabled()` returns false, and for every `func_id` and every Init
environment, `call` invokes the execution context's caller accessor (the
observable side effect is recorded) and returns a NoChainExtension error,
never a `RetVal`. -/
theorem unit_extension_disabled_and_fails (func_id : Nat) (env : Environment .Init) :
    UnitExtension.enabled = false ∧
    (UnitExtension.call func_id env).2 = Except.error DispatchError.NoChainExtension ∧
    (UnitExtension.call func_id env).1.ext.caller_reads =
      env.inner.runtime.ext.caller_reads + 1 :=
  ⟨rfl, rfl, rfl⟩

theorem val_accessors_return_call_words_witness :
    (environment (Runtime.mk 0 [] (Ext.mk 0 0)) 11 22 33 44).only_in.val0 (by decide) = 11 ∧
    (environment (Runtime.mk 0 [] (Ext.mk 0 0)) 11 22 33 44).only_in.val3 (by decide) = 44 := by
  have hm := val_accessors_return_call_words (Runtime.mk 0 [] (Ext.mk 0 0)) 11 22 33 44
  exact ⟨hm.1, hm.2.2.2.1⟩

theorem transitions_preserve_inner_witness :
    (environment (Runtime.mk 5 [1] (Ext.mk 2 0)) 11 22 33 44).buf_in_buf_out.inner =
      (environment (Runtime.mk 5 [1] (Ext.mk 2 0)) 11 22 33 44).inner :=
  (transitions_preserve_inner (environment (Runtime.mk 5 [1] (Ext.mk 2 0)) 11 22 33 44)).2.2.1

theorem unit_extension_disabled_and_fails_witness :
    (UnitExtension.call 7 (environment (Runtime.mk 5 [] (Ext.mk 9 0)) 1 2 3 4)).2 =
      Except.error DispatchError.NoChainExtension ∧
    (UnitExtension.call 7 (environment (Runtime.mk 5 [] (Ext.mk 9 0)) 1 2 3 4)).1.ext.caller_reads
      = 1 := by
  have hm := unit_extension_disabled_and_fails 7 (environment (Runtime.mk 5 [] (Ext.mk 9 0)) 1 2 3 4)
  exact ⟨hm.2.1, hm.2.2.trans (by decide)⟩

/-- C4: In a BufIn-capable state, `read()` reads exactly `val1` (Call
Word 1) bytes starting at guest address `val0` (Call Word 0) out of
sandbox memory; if that range is not fully mapped it fails with a
MemoryAccessOutOfBounds error and returns no partial data. -/
theorem read_exact_or_out_of_bounds {S : MState} (h : hasCap S Capability.BufIn = true)
    (e : Environment S) :
    (e.inner.input_ptr + e.inner.input_len ≤ e.inner.runtime.memory.length →
      e.read h =
        Except.ok ((e.inner.runtime.memory.drop e.inner.input_ptr).take e.inner.input_len) ∧
      ∀ bs, e.read h = Except.ok bs → bs.length = e.inner.input_len) ∧
    (e.inner.runtime.memory.length < e.inner.input_ptr + e.inner.input_len →
      e.read h = Except.error DispatchError.MemoryAccessOutOfBounds) := by
  constructor
  · intro hin
    have hok : e.read h =
        Except.ok ((e.inner.runtime.memory.drop e.inner.input_ptr).take e.inner.input_len) := by
      unfold Environment.read Runtime.read_sandbox_memory
      rw [if_pos hin]
    refine ⟨hok, fun bs hbs => ?_⟩
    rw [hok] at hbs
    injection hbs with hbs
    rw [← hbs]
    simp only [List.length_take, List.length_drop]
    omega
  · intro hout
    unfold Environment.read Runtime.read_sandbox_memory
    rw [if_neg (by omega)]

theorem read_exact_or_out_of_bounds_witness :
    (environment (Runtime.mk 10 [0, 1, 2, 3, 4, 5, 6, 7] (Ext.mk 0 0)) 2 3 0 0).buf_in_buf_out.read
      (by decide) = Except.ok [2, 3, 4] := by
  have hmain := (read_exact_or_out_of_bounds (S := MState.BufInBufOut) (by decide)
    (environment (Runtime.mk 10 [0, 1, 2, 3, 4, 5, 6, 7] (Ext.mk 0 0)) 2 3 0 0).buf_in_buf_out).1
    (by decide)
  exact hmain.1

/-- C8: In a BufOut-capable state, `write(buf, true, weight_per_byte)`
with the guest-supplied skip sentinel as output pointer performs zero
sandbox memory writes (the runtime is returned unchanged) and returns
success. -/
theorem write_skip_sentinel {S : MState} (h : hasCap S Capability.BufOut = true)
    (e : Environment S) (buf : List Nat) (wpb : Option Nat)
    (hs : e.inner.output_ptr = skipSentinel) :
    e.write h buf true wpb = (e.inner.runtime, none) := by
  unfold Environment.write Runtime.write_sandbox_output
  rw [if_pos]
  simp [hs]

theorem write_skip_sentinel_witness :
    (environment (Runtime.mk 10 [0, 0, 0, 0] (Ext.mk 0 0)) 0 0 skipSentinel 0).buf_in_buf_out.write
      (by decide) [1, 2, 3] true (some 5) =
        (Runtime.mk 10 [0, 0, 0, 0] (Ext.mk 0 0), none) :=
  write_skip_sentinel (S := MState.BufInBufOut) (by decide)
    (environment (Runtime.mk 10 [0, 0, 0, 0] (Ext.mk 0 0)) 0 0 skipSentinel 0).buf_in_buf_out
    [1, 2, 3] (some 5) rfl

/-- C10: In a BufOut-capable state, `write(buf, allow_skip, None)` charges
no gas at all — the cost callback produces no chargeable token when
`weight_per_byte` is absent, so the remaining gas is unchanged on every
path, regardless of `len(buf)`. -/
theorem write_without_weight_charges_no_gas {S : MState} (h : hasCap S Capability.BufOut = true)
    (e : Environment S) (buf : List Nat) (allow_skip : Bool) :
    ((e.write h buf allow_skip none).1).gas = e.inner.runtime.gas := by
  unfold Environment.write Runtime.write_sandbox_output
  split
  · rfl
  · split
    · rfl
    · split
      · rfl
      · simp only [Option.map_none']

theorem write_without_weight_charges_no_gas_witness :
    (((environment (Runtime.mk 10 [4, 0, 0, 0, 0, 0, 0, 0] (Ext.mk 0 0)) 0 0 4 0).buf_in_buf_out.write
      (by decide) [9, 9] false none).1).gas = 10 :=
  write_without_weight_charges_no_gas (S := MState.BufInBufOut) (by decide)
    (environment (Runtime.mk 10 [4, 0, 0, 0, 0, 0, 0, 0] (Ext.mk 0 0)) 0 0 4 0).buf_in_buf_out
    [9, 9] false

/-- C5: In a BufOut-capable state, a non-skipped
`write(buf, allow_skip, weight_per_byte)` writes `buf` into sandbox
memory at the address given by Call Word 2 after first writing the actual
length `len(buf)` to the 32-bit guest location given by Call Word 3 (the
final memory is the length-write followed by the data-write), and fails
with a MemoryAccessOutOfBounds error, leaving the runtime unchanged, when
`buf` does not fit in the guest's declared output buffer. -/
theorem write_output_semantics {S : MState} (h : hasCap S Capability.BufOut = true)
    (e : Environment S) (buf : List Nat) (allow_skip : Bool) (wpb : Option Nat)
    (hskip : allow_skip = false ∨ e.inner.output_ptr ≠ skipSentinel)
    (hlenptr : e.inner.output_len_ptr + 4 ≤ e.inner.runtime.memory.length) :
    (le32_decode ((e.inner.runtime.memory.drop e.inner.output_len_ptr).take 4) < buf.length →
      e.write h buf allow_skip wpb =
        (e.inner.runtime, some DispatchError.MemoryAccessOutOfBounds)) ∧
    (buf.length ≤ le32_decode ((e.inner.runtime.memory.drop e.inner.output_len_ptr).take 4) →
      e.inner.output_ptr + buf.length ≤ e.inner.runtime.memory.length →
      (wpb.map (fun w => saturating_mul w buf.length)).getD 0 ≤ e.inner.runtime.gas →
      (e.write h buf allow_skip wpb).2 = none ∧
      (e.write h buf allow_skip wpb).1.memory =
        writeMem (writeMem e.inner.runtime.memory e.inner.output_len_ptr (le32 buf.length))
          e.inner.output_ptr buf ∧
      (∀ i, i < buf.length →
        ((e.write h buf allow_skip wpb).1.memory)[e.inner.output_ptr + i]? = buf[i]?) ∧
      ((e.inner.output_len_ptr + 4 ≤ e.inner.output_ptr ∨
          e.inner.output_ptr + buf.length ≤ e.inner.output_len_ptr) →
        ∀ i, i < 4 →
          ((e.write h buf allow_skip wpb).1.memory)[e.inner.output_len_ptr + i]? =
            (le32 buf.length)[i]?)) := by
  have hguard : (allow_skip && decide (e.inner.output_ptr = skipSentinel)) = false := by
    rcases hskip with hs | hs <;> simp [hs]
  constructor
  · intro hsmall
    exact write_sandbox_output_too_small _ _ _ _ _ _ hguard hlenptr hsmall
  · intro hfit hbound hgas
    have hw : e.write h buf allow_skip wpb =
        (Runtime.mk
          (e.inner.runtime.gas -
            ((fun len => wpb.map (fun w => saturating_mul w len)) buf.length).getD 0)
          (writeMem
            (writeMem e.inner.runtime.memory e.inner.output_len_ptr (le32 buf.length))
            e.inner.output_ptr buf)
          e.inner.runtime.ext, none) :=
      write_sandbox_output_success e.inner.runtime e.inner.output_ptr e.inner.output_len_ptr
        buf allow_skip (fun len => wpb.map (fun w => saturating_mul w len))
        hguard hlenptr hfit hbound hgas
    have hm1 : (writeMem e.inner.runtime.memory e.inner.output_len_ptr (le32 buf.length)).length
        = e.inner.runtime.memory.length :=
      writeMem_length _ _ _ (by rw [le32_length]; omega)
    refine ⟨by rw [hw], by rw [hw], fun i hi => ?_, fun hdisj i hi4 => ?_⟩
    · rw [hw]
      rw [writeMem_getElem _ _ _ _ (by rw [hm1]; exact hbound)]
      rw [if_pos ⟨Nat.le_add_right _ _, by omega⟩]
      congr 1
      omega
    · rw [hw]
      rw [writeMem_getElem _ _ _ _ (by rw [hm1]; exact hbound)]
      rw [if_neg (by rcases hdisj with hd | hd <;> omega)]
      rw [writeMem_getElem _ _ _ _ (by rw [le32_length]; omega)]
      rw [if_pos ⟨Nat.le_add_right _ _, by rw [le32_length]; omega⟩]
      congr 1
      omega

theorem write_output_semantics_witness :
    ((environment (Runtime.mk 10 [8, 0, 0, 0, 0, 0, 0, 0, 0, 0, 0, 0] (Ext.mk 0 0))
        0 0 4 0).buf_in_buf_out.write (by decide) [7, 9] false none).2 = none ∧
    ((environment (Runtime.mk 10 [8, 0, 0, 0, 0, 0, 0, 0, 0, 0, 0, 0] (Ext.mk 0 0))
        0 0 4 0).buf_in_buf_out.write (by decide) [7, 9] false none).1.memory =
      [2, 0, 0, 0, 7, 9, 0, 0, 0, 0, 0, 0] := by
  have hm := (write_output_semantics (S := MState.BufInBufOut) (by decide)
    (environment (Runtime.mk 10 [8, 0, 0, 0, 0, 0, 0, 0, 0, 0, 0, 0] (Ext.mk 0 0))
      0 0 4 0).buf_in_buf_out [7, 9] false none (Or.inl rfl) (by decide)).2
    (by decide) (by decide) (by decide)
  exact ⟨hm.1, hm.2.1.trans (by decide)⟩

/-- C3 (counterexample): with remaining gas `2^64 - 1`, `weight_per_byte
= 2^64 - 1` and a 2-byte buffer, the product `w * len(buf)` exceeds the
remaining gas, so the claim demands an OutOfGas failure with no write;
the code instead saturates the charge at `2^64 - 1`, succeeds, and leaves
zero gas. -/
theorem write_charge_not_exact_counterexample :
    u64Max < u64Max * 2 ∧
    ((environment (Runtime.mk u64Max [16, 0, 0, 0, 0, 0, 0, 0] (Ext.mk 0 0))
        0 0 4 0).buf_in_buf_out.write (by decide) [7, 7] false (some u64Max)).2 = none ∧
    ((environment (Runtime.mk u64Max [16, 0, 0, 0, 0, 0, 0, 0] (Ext.mk 0 0))
        0 0 4 0).buf_in_buf_out.write (by decide) [7, 7] false (some u64Max)).1.gas = 0 := by
  refine ⟨by decide, by decide, by decide⟩

/-- C3 (amended): in a BufOut-capable state, a non-skipped, in-bounds
`write(buf, allow_skip, Some(w))` charges the gas meter exactly
`saturating_mul w (len buf)` — the `u64`-saturated product, which equals
`w * len(buf)` whenever that product fits in a `u64` — before any byte is
written, and if that saturated charge exceeds the remaining gas the call
fails with an OutOfGas error having performed no write (the runtime is
returned unchanged). -/
theorem write_charges_saturated_weight {S : MState} (h : hasCap S Capability.BufOut = true)
    (e : Environment S) (buf : List Nat) (allow_skip : Bool) (w : Nat)
    (hskip : allow_skip = false ∨ e.inner.output_ptr ≠ skipSentinel)
    (hlenptr : e.inner.output_len_ptr + 4 ≤ e.inner.runtime.memory.length)
    (hfit : buf.length ≤
      le32_decode ((e.inner.runtime.memory.drop e.inner.output_len_ptr).take 4))
    (hbound : e.inner.output_ptr + buf.length ≤ e.inner.runtime.memory.length) :
    (saturating_mul w buf.length ≤ e.inner.runtime.gas →
      (e.write h buf allow_skip (some w)).2 = none ∧
      (e.write h buf allow_skip (some w)).1.gas =
        e.inner.runtime.gas - saturating_mul w buf.length) ∧
    (e.inner.runtime.gas < saturating_mul w buf.length →
      e.write h buf allow_skip (some w) = (e.inner.runtime, some DispatchError.OutOfGas)) := by
  have hguard : (allow_skip && decide (e.inner.output_ptr = skipSentinel)) = false := by
    rcases hskip with hs | hs <;> simp [hs]
  constructor
  · intro hsat
    have hw : e.write h buf allow_skip (some w) =
        (Runtime.mk
          (e.inner.runtime.gas -
            ((fun len => (some w).map (fun v => saturating_mul v len)) buf.length).getD 0)
          (writeMem
            (writeMem e.inner.runtime.memory e.inner.output_len_ptr (le32 buf.length))
            e.inner.output_ptr buf)
          e.inner.runtime.ext, none) :=
      write_sandbox_output_success e.inner.runtime e.inner.output_ptr e.inner.output_len_ptr
        buf allow_skip (fun len => (some w).map (fun v => saturating_mul v len))
        hguard hlenptr hfit hbound hsat
    exact ⟨by rw [hw], by rw [hw]; rfl⟩
  · intro hlow
    exact write_sandbox_output_gas_exhausted e.inner.runtime e.inner.output_ptr
      e.inner.output_len_ptr buf allow_skip
      (fun len => (some w).map (fun v => saturating_mul v len))
      (saturating_mul w buf.length) hguard hlenptr hfit hbound rfl hlow

theorem write_charges_saturated_weight_witness :
    (((environment (Runtime.mk 100 [8, 0, 0, 0, 0, 0, 0, 0] (Ext.mk 0 0))
        0 0 4 0).buf_in_buf_out.write (by decide) [1, 2] false (some 3)).1).gas = 94 := by
  have hm := (write_charges_saturated_weight (S := MState.BufInBufOut) (by decide)
    (environment (Runtime.mk 100 [8, 0, 0, 0, 0, 0, 0, 0] (Ext.mk 0 0)) 0 0 4 0).buf_in_buf_out
    [1, 2] false 3 (Or.inl rfl) (by decide) (by decide) (by decide)).1 (by decide)
  exact hm.2.trans (by decide)

end ChainExt
